import Mathlib

/-!
Verification development for the terminal/agent platform
(`ter-mammal-mcp`): a shallow embedding of the command router in
`src/components/Terminal/TerminalPanel.tsx`, the MCP message handlers in
`containers/claude-code/health-check.js` and the gemini `mcp-server.js`,
and the terminal grid state handlers in `TerminalGrid`.

JavaScript strings are modelled as `List Char`; `String.prototype.trim`,
`startsWith`, `slice` and `includes` are modelled by the corresponding
list functions below.
-/

/-! ## Command router (`handleCommand` / `terminal.onData` in TerminalPanel.tsx) -/

/-- Whitespace characters removed by `String.prototype.trim`. -/
def isWhitespaceChar (c : Char) : Bool :=
  c = ' ' || c = '\t' || c = '\n' || c = '\r' || c = '\x0b' || c = '\x0c'

/-- Model of `String.prototype.trim`: strip whitespace at both ends. -/
def trim (s : List Char) : List Char :=
  ((s.dropWhile isWhitespaceChar).reverse.dropWhile isWhitespaceChar).reverse

def clearWord : List Char := "clear".toList

def helpWord : List Char := "help".toList

def statusWord : List Char := "status".toList

def historyWord : List Char := "history".toList

def claudeKeyword : List Char := "claude".toList

def geminiKeyword : List Char := "gemini".toList

inductive AgentKind
  | claude
  | gemini
deriving DecidableEq, Repr

/-- How `handleCommand` dispatches a (trimmed, nonempty) command line:
one of the four reserved control words handled inline, an agent branch
(`command.startsWith('claude')` / `command.startsWith('gemini')`) carrying
the prompt `command.slice(6).trim()`, or the default system-command branch. -/
inductive Classification
  | control (word : List Char)
  | agent (kind : AgentKind) (prompt : List Char)
  | localCmd (command : List Char)
deriving DecidableEq, Repr

/-- Embedding of `handleCommand` (TerminalPanel.tsx, lines 204-332): the
branch structure of the dispatcher, in source order.  `startsWith` is
`List.isPrefixOf`; `command.slice(6).trim()` is `trim (command.drop 6)`. -/
def handleCommand (command : List Char) : Classification :=
  if command = clearWord then .control command
  else if command = helpWord then .control command
  else if command = statusWord then .control command
  else if command = historyWord then .control command
  else if claudeKeyword.isPrefixOf command then .agent .claude (trim (command.drop 6))
  else if geminiKeyword.isPrefixOf command then .agent .gemini (trim (command.drop 6))
  else .localCmd command

/-- Whether the branch taken by `handleCommand` calls `setIsRunning(true)`:
the agent branches and the default system branch do; the four control-word
branches return before any such call. -/
def setsIsRunning (command : List Char) : Bool :=
  match handleCommand command with
  | .control _ => false
  | .agent _ _ => true
  | .localCmd _ => true

/-- The agent kind a command is classified as, if any. -/
def agentKindOf (command : List Char) : Option AgentKind :=
  match handleCommand command with
  | .agent k _ => some k
  | _ => none

/-- First whitespace-delimited token of a line. -/
def firstToken (line : List Char) : List Char :=
  (trim line).takeWhile (fun c => !(isWhitespaceChar c))

/-- Embedding of the Enter-key branch of `terminal.onData` (TerminalPanel.tsx,
lines 105-116): if the current line trims to nonempty, dispatch
`handleCommand` on the trimmed line and append it to `commandHistory`;
otherwise do nothing. Returns the new history and the dispatched
classification, if any. -/
def routeLine (history : List (List Char)) (currentLine : List Char) :
    List (List Char) × Option Classification :=
  if (trim currentLine).isEmpty then (history, none)
  else (history ++ [trim currentLine], some (handleCommand (trim currentLine)))

/-- Route a sequence of input lines, threading the command history. -/
def routeLines (history : List (List Char)) (lines : List (List Char)) :
    List (List Char) :=
  lines.foldl (fun h l => (routeLine h l).1) history

/-- The sequence numbers shown by the `history` control word
(TerminalPanel.tsx, lines 240-251): entry at position `index` is displayed
with number `index + 1`. -/
def displayedNumbers (history : List (List Char)) : List Nat :=
  (List.range history.length).map (fun i => i + 1)

/-! ### Helper lemmas about `handleCommand` -/

theorem handleCommand_of_claude (c : List Char)
    (h : claudeKeyword.isPrefixOf c = true) :
    handleCommand c = .agent .claude (trim (c.drop 6)) := by
  have e1 : c ≠ clearWord := by rintro rfl; exact absurd h (by decide)
  have e2 : c ≠ helpWord := by rintro rfl; exact absurd h (by decide)
  have e3 : c ≠ statusWord := by rintro rfl; exact absurd h (by decide)
  have e4 : c ≠ historyWord := by rintro rfl; exact absurd h (by decide)
  simp [handleCommand, e1, e2, e3, e4, h]

theorem handleCommand_of_gemini (c : List Char)
    (hg : geminiKeyword.isPrefixOf c = true)
    (hc : claudeKeyword.isPrefixOf c = false) :
    handleCommand c = .agent .gemini (trim (c.drop 6)) := by
  have e1 : c ≠ clearWord := by rintro rfl; exact absurd hg (by decide)
  have e2 : c ≠ helpWord := by rintro rfl; exact absurd hg (by decide)
  have e3 : c ≠ statusWord := by rintro rfl; exact absurd hg (by decide)
  have e4 : c ≠ historyWord := by rintro rfl; exact absurd hg (by decide)
  simp [handleCommand, e1, e2, e3, e4, hc, hg]

theorem handleCommand_agent_inv (c : List Char) (k : AgentKind) (p : List Char)
    (h : handleCommand c = .agent k p) :
    p = trim (c.drop 6) ∧
      (k = .claude → claudeKeyword.isPrefixOf c = true) ∧
      (k = .gemini →
        geminiKeyword.isPrefixOf c = true ∧ claudeKeyword.isPrefixOf c = false) := by
  unfold handleCommand at h
  split_ifs at h with h1 h2 h3 h4 h5 h6
  · cases h
    exact ⟨rfl, fun _ => h5, fun hk => AgentKind.noConfusion hk⟩
  · cases h
    exact ⟨rfl, fun hk => AgentKind.noConfusion hk,
      fun _ => ⟨h6, Bool.eq_false_iff.mpr h5⟩⟩

/-! ### Claim theorems: routing -/

/-- C1 (amended): a routed line is classified `agent:claude` iff the
string `claude` is a prefix of the line (prefix match, not first-token
match; the claude check precedes the gemini check), and `agent:gemini`
iff `gemini` is a prefix and `claude` is not; the request argument passed
in either case is the whitespace-trimmed remainder of the line after its
first 6 characters (which may be empty). -/
theorem agent_keyword_classification (c : List Char) :
    (agentKindOf c = some AgentKind.claude ↔ claudeKeyword.isPrefixOf c = true) ∧
    (agentKindOf c = some AgentKind.gemini ↔
      geminiKeyword.isPrefixOf c = true ∧ claudeKeyword.isPrefixOf c = false) ∧
    (∀ k p, handleCommand c = .agent k p → p = trim (c.drop 6)) := by
  refine ⟨⟨?_, ?_⟩, ⟨?_, ?_⟩, ?_⟩
  · intro h
    unfold agentKindOf at h
    cases heq : handleCommand c with
    | control w => rw [heq] at h; cases h
    | localCmd s => rw [heq] at h; cases h
    | agent k p =>
        rw [heq] at h
        cases h
        exact (handleCommand_agent_inv c _ p heq).2.1 rfl
  · intro h
    simp [agentKindOf, handleCommand_of_claude c h]
  · intro h
    unfold agentKindOf at h
    cases heq : handleCommand c with
    | control w => rw [heq] at h; cases h
    | localCmd s => rw [heq] at h; cases h
    | agent k p =>
        rw [heq] at h
        cases h
        exact (handleCommand_agent_inv c _ p heq).2.2 rfl
  · rintro ⟨hg, hc⟩
    simp [agentKindOf, handleCommand_of_gemini c hg hc]
  · intro k p h
    exact (handleCommand_agent_inv c k p h).1

/-- C1 counterexample: the input line `claudex` has first token `claudex`,
which is not a registered agent keyword, yet it is classified as an agent
command of kind claude (with request argument `x`). -/
theorem agent_keyword_classification_cex :
    agentKindOf ("claudex".toList) = some AgentKind.claude ∧
    firstToken ("claudex".toList) ≠ claudeKeyword ∧
    firstToken ("claudex".toList) ≠ geminiKeyword := by decide

/-- C1 witness: at the concrete line `claude hi`, the classification is
`agent:claude` and the request argument is `hi`. -/
theorem agent_keyword_classification_witness :
    agentKindOf ("claude hi".toList) = some AgentKind.claude ∧
    ("hi".toList) = trim (("claude hi".toList).drop 6) :=
  ⟨(agent_keyword_classification ("claude hi".toList)).1.mpr (by decide),
   (agent_keyword_classification ("claude hi".toList)).2.2 AgentKind.claude
     ("hi".toList) (by decide)⟩

/-- C6: an input line that is empty or consists only of whitespace is a
no-op for the router: no classification is dispatched and the command
history is unchanged. -/
theorem whitespace_line_noop (history : List (List Char)) (line : List Char)
    (h : ∀ c ∈ line, isWhitespaceChar c = true) :
    routeLine history line = (history, none) := by
  have h1 : line.dropWhile isWhitespaceChar = [] :=
    List.dropWhile_eq_nil_iff.mpr h
  have ht : trim line = [] := by simp [trim, h1]
  simp [routeLine, ht]

/-- C6 witness: routing the line `" \t "` leaves the history `["ls"]`
unchanged and dispatches nothing. -/
theorem whitespace_line_noop_witness :
    routeLine [("ls".toList)] (" \t ".toList) = ([("ls".toList)], none) :=
  whitespace_line_noop [("ls".toList)] (" \t ".toList) (by decide)

/-- C7: each of the reserved control words `clear`, `help`, `status`,
`history` is handled by the control branch of `handleCommand`: it is not
classified as an agent command or a local command (so no agent request is
issued and the local-executor branch is not reached), and `setIsRunning`
is not invoked for it. -/
theorem control_words_synchronous (c : List Char)
    (h : c = clearWord ∨ c = helpWord ∨ c = statusWord ∨ c = historyWord) :
    handleCommand c = .control c ∧ setsIsRunning c = false ∧
      (∀ k p, handleCommand c ≠ .agent k p) ∧
      (∀ s, handleCommand c ≠ .localCmd s) := by
  have hc : handleCommand c = .control c := by
    rcases h with h | h | h | h <;> subst h <;> decide
  refine ⟨hc, ?_, ?_, ?_⟩
  · unfold setsIsRunning
    rw [hc]
  · intro k p hne
    rw [hc] at hne
    cases hne
  · intro s hne
    rw [hc] at hne
    cases hne

/-- C7 witness: the concrete line `status` is a control command, does not
set the running flag, and is not an agent command. -/
theorem control_words_synchronous_witness :
    handleCommand statusWord = .control statusWord ∧
      setsIsRunning statusWord = false :=
  ⟨(control_words_synchronous statusWord (Or.inr (Or.inr (Or.inl rfl)))).1,
   (control_words_synchronous statusWord (Or.inr (Or.inr (Or.inl rfl)))).2.1⟩

/-! ### Claim C3: transcript numbering -/

theorem displayedNumbers_eq_range' (history : List (List Char)) :
    displayedNumbers history = List.range' 1 history.length := by
  simp [displayedNumbers, List.range'_eq_map_range, Nat.add_comm]

theorem chain'_succ_range' (n : Nat) :
    ∀ s, List.Chain' (fun a b => a + 1 = b) (List.range' s n) := by
  induction n with
  | zero => intro s; simp
  | succ m ih =>
      intro s
      rw [List.range'_succ]
      cases m with
      | zero => simp
      | succ m' =>
          rw [List.range'_succ]
          exact List.Chain'.cons rfl (by rw [← List.range'_succ]; exact ih (s + 1))

theorem routeLines_length (lines : List (List Char)) :
    ∀ history, (routeLines history lines).length =
      history.length + lines.countP (fun l => !(trim l).isEmpty) := by
  induction lines with
  | nil => intro history; simp [routeLines]
  | cons l ls ih =>
      intro history
      show (routeLines (routeLine history l).1 ls).length = _
      rw [List.countP_cons]
      by_cases he : (trim l).isEmpty
      · rw [show (routeLine history l).1 = history by simp [routeLine, he]]
        simp [ih history, he]
      · rw [show (routeLine history l).1 = history ++ [trim l] by
          simp [routeLine, he]]
        rw [ih (history ++ [trim l])]
        simp [he]
        omega

/-- C3: after routing any sequence of input lines from an empty history,
the sequence numbers displayed for the transcript are exactly
`1, 2, ..., n` — consecutive (each successor is the predecessor plus one,
hence strictly increasing with no gaps) — where `n` is the number of
routed lines that trimmed to nonempty. -/
theorem transcript_numbers_consecutive (lines : List (List Char)) :
    displayedNumbers (routeLines [] lines) =
      List.range' 1 (lines.countP (fun l => !(trim l).isEmpty)) ∧
    List.Chain' (fun a b => a + 1 = b) (displayedNumbers (routeLines [] lines)) := by
  have hlen : (routeLines [] lines).length =
      lines.countP (fun l => !(trim l).isEmpty) := by
    rw [routeLines_length lines []]
    simp
  constructor
  · rw [displayedNumbers_eq_range', hlen]
  · rw [displayedNumbers_eq_range']
    exact chain'_succ_range' _ 1

/-! ## MCP agent endpoints (`health-check.js` claude server, gemini `mcp-server.js`) -/

def claudeCompleteMethod : List Char := "claude/complete".toList

def geminiCompleteMethod : List Char := "gemini/complete".toList

def methodNotFoundMessage : List Char := "Method not found".toList

def parseErrorMessage : List Char := "Parse error".toList

def jsonrpcVersion : List Char := "2.0".toList

def claudeModelName : List Char := "claude-code".toList

def geminiModelName : List Char := "gemini-cli".toList

/-- An inbound MCP request after `JSON.parse`: its correlation id (opaque
to the endpoint, of arbitrary type `alpha`), its `method`, and
`params?.prompt` when present. -/
structure MCPRequest (alpha : Type) where
  id : alpha
  method : List Char
  prompt : Option (List Char)

structure MCPError where
  code : Int
  message : List Char
deriving DecidableEq, Repr

/-- The `result` object built by the success branch of the handlers. -/
structure MCPResult where
  completion : List Char
  tokens_used : Nat
  model : List Char
  search_used : Option Bool
deriving DecidableEq, Repr

/-- The reply shape emitted by both endpoints. `id = none` models the
literal JSON `null` passed in the parse-error branch. -/
structure MCPResponse (alpha : Type) where
  jsonrpc : List Char
  id : Option alpha
  result : Option MCPResult
  error : Option MCPError

/-- Embedding of `createMCPResponse(id, result, error)`. -/
def createMCPResponse {alpha : Type} (id : Option alpha) (result : Option MCPResult)
    (error : Option MCPError) : MCPResponse alpha :=
  { jsonrpc := jsonrpcVersion, id := id, result := result, error := error }

/-- Model of `String.prototype.includes`. -/
def includes (s sub : List Char) : Bool :=
  s.tails.any (fun t => sub.isPrefixOf t)

/-- Embedding of `processClaudeRequest(prompt)` (health-check.js,
lines 51-81). -/
def processClaudeRequest (prompt : List Char) : List Char :=
  if prompt.isEmpty then
    ("Claude Code is ready. I can help with code analysis, editing, and development tasks.".toList)
  else if includes prompt ("refactor".toList) then
    ("I\x27ll help you refactor the code. Here\x27s my analysis:\n\n1. Analyzing current code structure...\n2. Identifying optimization opportunities...\n3. Proposing refactoring plan...\n\nReady to proceed with the refactoring?".toList)
  else if includes prompt ("test".toList) then
    ("I\x27ll help you write comprehensive tests:\n\n1. Analyzing code coverage requirements...\n2. Setting up test framework...\n3. Writing unit and integration tests...\n\nShall I implement the test suite?".toList)
  else
    ("Claude Code: I\x27ll help you with \"".toList) ++ prompt ++
      ("\". Let me analyze the request and provide a comprehensive solution.".toList)

/-- Embedding of `processGeminiRequest(prompt)` (gemini mcp-server.js,
lines 79-132). -/
def processGeminiRequest (prompt : List Char) : List Char :=
  if prompt.isEmpty then
    ("Gemini CLI is ready. I can help with code generation, analysis, and complex queries using Google Search.".toList)
  else if includes prompt ("search".toList) || includes prompt ("find".toList) then
    ("🔍 Searching Google for information about \"".toList) ++ prompt ++
      ("\"...\n\nBased on the latest search results:\n\n1. Current best practices and trends\n2. Technical implementation details  \n3. Community discussions and insights\n4. Official documentation and resources\n\nHere\x27s what I found: [Detailed search-based response would go here]".toList)
  else if includes prompt ("generate".toList) || includes prompt ("create".toList) then
    ("🎯 Generating solution for \"".toList) ++ prompt ++
      ("\"...\n\nI\x27ll create:\n1. Well-structured, optimized code\n2. Comprehensive documentation\n3. Best practices implementation\n4. Error handling and edge cases\n\nHere\x27s the generated solution: [Generated code would go here]".toList)
  else if includes prompt ("explain".toList) || includes prompt ("analyze".toList) then
    ("📊 Analyzing \"".toList) ++ prompt ++
      ("\"...\n\nLet me break this down:\n• Core concepts and principles\n• Technical implementation details\n• Real-world applications\n• Performance considerations\n\nDetailed explanation: [Analysis would go here]".toList)
  else
    ("Gemini CLI: I\x27ll help you with \"".toList) ++ prompt ++
      ("\". Let me search for the latest information and provide a comprehensive solution.\n\n🔍 Searching for relevant information...\n📊 Analyzing current trends...\n💡 Preparing detailed recommendations...\n\nReady to provide you with the complete solution!".toList)

/-- Embedding of the claude `wss.on('message')` handler (health-check.js,
lines 92-123).  The argument is the outcome of `JSON.parse(data)`:
`some message` when parsing succeeded, `none` when it threw (the `catch`
branch).  The handler always returns exactly one response. -/
def claudeOnMessage {alpha : Type} (parsed : Option (MCPRequest alpha)) :
    MCPResponse alpha :=
  match parsed with
  | some message =>
      if message.method = claudeCompleteMethod then
        let prompt := message.prompt.getD []
        let response := processClaudeRequest prompt
        createMCPResponse (some message.id)
          (some { completion := response, tokens_used := response.length,
                  model := claudeModelName, search_used := none }) none
      else
        createMCPResponse (some message.id) none
          (some { code := -32601, message := methodNotFoundMessage })
  | none =>
      createMCPResponse none none
        (some { code := -32700, message := parseErrorMessage })

/-- Embedding of the gemini `wss.on('message')` handler (gemini
mcp-server.js, lines 143-175). -/
def geminiOnMessage {alpha : Type} (parsed : Option (MCPRequest alpha)) :
    MCPResponse alpha :=
  match parsed with
  | some message =>
      if message.method = geminiCompleteMethod then
        let prompt := message.prompt.getD []
        let response := processGeminiRequest prompt
        createMCPResponse (some message.id)
          (some { completion := response, tokens_used := response.length,
                  model := geminiModelName, search_used := some true }) none
      else
        createMCPResponse (some message.id) none
          (some { code := -32601, message := methodNotFoundMessage })
  | none =>
      createMCPResponse none none
        (some { code := -32700, message := parseErrorMessage })

/-! ### Claim theorems: MCP endpoints -/

/-- C2: for every inbound request whose method is the supported completion
method, the reply emitted by the endpoint carries exactly the request's
correlation id, whatever its type — the id is echoed verbatim. -/
theorem reply_id_echoed {alpha : Type} (message : MCPRequest alpha) :
    (message.method = claudeCompleteMethod →
      (claudeOnMessage (some message)).id = some message.id) ∧
    (message.method = geminiCompleteMethod →
      (geminiOnMessage (some message)).id = some message.id) := by
  constructor <;> intro h <;>
    simp [claudeOnMessage, geminiOnMessage, createMCPResponse, h]

/-- C2 witness: concrete requests with id `42` get replies with id `42`. -/
theorem reply_id_echoed_witness :
    (claudeOnMessage (some ({ id := 42, method := claudeCompleteMethod,
                              prompt := none } : MCPRequest Nat))).id = some 42 ∧
    (geminiOnMessage (some ({ id := 42, method := geminiCompleteMethod,
                              prompt := none } : MCPRequest Nat))).id = some 42 :=
  ⟨(reply_id_echoed _).1 rfl, (reply_id_echoed _).2 rfl⟩

/-- C4: for every well-formed (parsed) inbound message the endpoint emits
exactly one reply (the handler is a function into `MCPResponse`); when the
method is the supported completion method, the reply is the result reply
carrying the completion, the echoed id, and a null error; for any other
method it is the error reply `{code := -32601, message := Method not found}`
with a null result.  Result and error are never both non-null. -/
theorem reply_exactly_one_result_or_error {alpha : Type}
    (message : MCPRequest alpha) :
    (message.method = claudeCompleteMethod →
      claudeOnMessage (some message) =
        createMCPResponse (some message.id)
          (some { completion := processClaudeRequest (message.prompt.getD []),
                  tokens_used := (processClaudeRequest (message.prompt.getD [])).length,
                  model := claudeModelName, search_used := none }) none) ∧
    (message.method ≠ claudeCompleteMethod →
      claudeOnMessage (some message) =
        createMCPResponse (some message.id) none
          (some { code := -32601, message := methodNotFoundMessage })) ∧
    (message.method = geminiCompleteMethod →
      geminiOnMessage (some message) =
        createMCPResponse (some message.id)
          (some { completion := processGeminiRequest (message.prompt.getD []),
                  tokens_used := (processGeminiRequest (message.prompt.getD [])).length,
                  model := geminiModelName, search_used := some true }) none) ∧
    (message.method ≠ geminiCompleteMethod →
      geminiOnMessage (some message) =
        createMCPResponse (some message.id) none
          (some { code := -32601, message := methodNotFoundMessage })) := by
  refine ⟨?_, ?_, ?_, ?_⟩ <;> intro h <;>
    simp [claudeOnMessage, geminiOnMessage, h]

/-- C4 witness: a supported-method request yields the result reply and an
unsupported-method request yields the method-not-found error reply, at
concrete inputs. -/
theorem reply_exactly_one_result_or_error_witness :
    claudeOnMessage (some ({ id := 7, method := claudeCompleteMethod,
                             prompt := some ("hi".toList) } : MCPRequest Nat)) =
      createMCPResponse (some 7)
        (some { completion := processClaudeRequest ("hi".toList),
                tokens_used := (processClaudeRequest ("hi".toList)).length,
                model := claudeModelName, search_used := none }) none ∧
    geminiOnMessage (some ({ id := 8, method := ("foo/bar".toList),
                             prompt := none } : MCPRequest Nat)) =
      createMCPResponse (some 8) none
        (some { code := -32601, message := methodNotFoundMessage }) :=
  ⟨(reply_exactly_one_result_or_error _).1 rfl,
   (reply_exactly_one_result_or_error _).2.2.2 (by decide)⟩

/-- C5: a message that fails to parse is handled by the `catch` branch:
the handler (a total function, so the process does not crash) returns the
single error reply `{code := -32700, message := Parse error}` with null id
and null result. -/
theorem parse_error_reply {alpha : Type} :
    (claudeOnMessage none : MCPResponse alpha) =
      createMCPResponse none none
        (some { code := -32700, message := parseErrorMessage }) ∧
    (geminiOnMessage none : MCPResponse alpha) =
      createMCPResponse none none
        (some { code := -32700, message := parseErrorMessage }) :=
  ⟨rfl, rfl⟩

/-! ## Terminal grid state (`TerminalGrid` component) -/

/-- A terminal entry of the grid state (`TerminalGrid`'s `Terminal`
interface): id, title, active flag and display order. -/
structure Terminal where
  id : Nat
  title : List Char
  active : Bool
  order : Nat
deriving DecidableEq, Repr

/-- The initial `useState` value of `TerminalGrid`. -/
def initialTerminals : List Terminal :=
  [{ id := 1, title := "Terminal 1".toList, active := true, order := 0 },
   { id := 2, title := "Terminal 2".toList, active := false, order := 1 },
   { id := 3, title := "Terminal 3".toList, active := false, order := 2 }]

/-- Embedding of `handleTerminalActivate`: mark exactly the terminals
whose id equals `terminalId` active. -/
def handleTerminalActivate (terminals : List Terminal) (terminalId : Nat) :
    List Terminal :=
  terminals.map (fun t => { t with active := t.id == terminalId })

/-- Embedding of `handleTerminalRename`. -/
def handleTerminalRename (terminals : List Terminal) (terminalId : Nat)
    (newTitle : List Char) : List Terminal :=
  terminals.map (fun t => if t.id == terminalId then { t with title := newTitle } else t)

/-- Model of `array.splice(n, 1)`: remove the element at index `n`. -/
def removeAt {alpha : Type} : Nat → List alpha → List alpha
  | _, [] => []
  | 0, _ :: l => l
  | n + 1, a :: l => a :: removeAt n l

/-- Model of `array.splice(n, 0, x)`: insert `x` at index `n` (clamped to
the end, as `splice` clamps). -/
def insertAt {alpha : Type} : Nat → alpha → List alpha → List alpha
  | 0, x, l => x :: l
  | _ + 1, x, [] => [x]
  | n + 1, x, a :: l => a :: insertAt n x l

/-- Model of `.map((terminal, index) => ({...terminal, order: index}))`,
starting from index `i`. -/
def updateOrders : Nat → List Terminal → List Terminal
  | _, [] => []
  | i, t :: ts => { t with order := i } :: updateOrders (i + 1) ts

/-- Embedding of `handleTerminalReorder`: remove the dragged terminal,
re-insert it at the hover position, then set each `order` field to its
array index.  `terminals[dragIndex]` is modelled by `get?`; the `none`
branch (out-of-bounds drag, which the UI never produces) leaves the list
unchanged. -/
def handleTerminalReorder (terminals : List Terminal) (dragIndex hoverIndex : Nat) :
    List Terminal :=
  match terminals.get? dragIndex with
  | some draggedTerminal =>
      updateOrders 0 (insertAt hoverIndex draggedTerminal (removeAt dragIndex terminals))
  | none => terminals

/-- The identity-relevant part of a terminal: everything except `order`. -/
def terminalView (t : Terminal) : Nat × List Char × Bool := (t.id, t.title, t.active)

def countActive (terminals : List Terminal) : Nat :=
  terminals.countP (fun t => t.active)

/-! ### Helper lemmas for the grid -/

theorem insertAt_perm {alpha : Type} (x : alpha) :
    ∀ (n : Nat) (l : List alpha), (insertAt n x l).Perm (x :: l) := by
  intro n
  induction n with
  | zero => intro l; cases l <;> simp [insertAt]
  | succ m ih =>
      intro l
      cases l with
      | nil => simp [insertAt]
      | cons a l =>
          show (a :: insertAt m x l).Perm (x :: a :: l)
          exact ((ih l).cons a).trans (List.Perm.swap x a l)

theorem removeAt_perm {alpha : Type} :
    ∀ (n : Nat) (l : List alpha) (h : n < l.length),
      (l.get ⟨n, h⟩ :: removeAt n l).Perm l := by
  intro n
  induction n with
  | zero =>
      intro l h
      cases l with
      | nil => simp at h
      | cons a l => simp [removeAt]
  | succ m ih =>
      intro l h
      cases l with
      | nil => simp at h
      | cons a l =>
          have h' : m < l.length := by simpa using h
          show (l.get ⟨m, h'⟩ :: a :: removeAt m l).Perm (a :: l)
          exact (List.Perm.swap a (l.get ⟨m, h'⟩) (removeAt m l)).trans
            ((ih l h').cons a)

theorem updateOrders_map {beta : Type} (f : Terminal → beta)
    (hf : ∀ (t : Terminal) (i : Nat), f { t with order := i } = f t) :
    ∀ (i : Nat) (l : List Terminal), (updateOrders i l).map f = l.map f := by
  intro i l
  induction l generalizing i with
  | nil => rfl
  | cons t ts ih => simp [updateOrders, hf, ih]

theorem updateOrders_orders :
    ∀ (i : Nat) (l : List Terminal),
      (updateOrders i l).map (fun t => t.order) = List.range' i l.length := by
  intro i l
  induction l generalizing i with
  | nil => rfl
  | cons t ts ih =>
      simp [updateOrders, List.length_cons, List.range'_succ, ih]

theorem reorder_map_perm {beta : Type} (f : Terminal → beta)
    (hf : ∀ (t : Terminal) (i : Nat), f { t with order := i } = f t)
    (terminals : List Terminal) (dragIndex hoverIndex : Nat)
    (hd : dragIndex < terminals.length) :
    ((handleTerminalReorder terminals dragIndex hoverIndex).map f).Perm
      (terminals.map f) := by
  have hget : terminals.get? dragIndex = some (terminals.get ⟨dragIndex, hd⟩) :=
    List.get?_eq_get hd
  have hunfold : handleTerminalReorder terminals dragIndex hoverIndex =
      updateOrders 0 (insertAt hoverIndex (terminals.get ⟨dragIndex, hd⟩)
        (removeAt dragIndex terminals)) := by
    simp only [handleTerminalReorder, hget]
  rw [hunfold, updateOrders_map f hf]
  exact List.Perm.map f ((insertAt_perm _ _ _).trans (removeAt_perm _ _ hd))

/-! ### Claim C10: reorder is an order-refreshing permutation -/

/-- C10: for in-bounds `dragIndex` and `hoverIndex`,
`handleTerminalReorder` returns a permutation of the previous terminals
preserving id, title and active flag, and the `order` fields afterwards
are exactly `0..n-1` in array order. -/
theorem reorder_is_permutation (terminals : List Terminal)
    (dragIndex hoverIndex : Nat)
    (hd : dragIndex < terminals.length) (_hh : hoverIndex < terminals.length) :
    ((handleTerminalReorder terminals dragIndex hoverIndex).map terminalView).Perm
        (terminals.map terminalView) ∧
    (handleTerminalReorder terminals dragIndex hoverIndex).map (fun t => t.order) =
      List.range terminals.length := by
  have hget : terminals.get? dragIndex = some (terminals.get ⟨dragIndex, hd⟩) :=
    List.get?_eq_get hd
  have hperm : (insertAt hoverIndex (terminals.get ⟨dragIndex, hd⟩)
      (removeAt dragIndex terminals)).Perm terminals :=
    (insertAt_perm _ _ _).trans (removeAt_perm _ _ hd)
  have hunfold : handleTerminalReorder terminals dragIndex hoverIndex =
      updateOrders 0 (insertAt hoverIndex (terminals.get ⟨dragIndex, hd⟩)
        (removeAt dragIndex terminals)) := by
    simp only [handleTerminalReorder, hget]
  constructor
  · exact reorder_map_perm terminalView (fun t i => rfl) terminals
      dragIndex hoverIndex hd
  · rw [hunfold, updateOrders_orders, hperm.length_eq]
    exact (List.range_eq_range' terminals.length).symm

/-- C10 witness: dragging the first terminal of the initial grid to the
last position. -/
theorem reorder_is_permutation_witness :
    ((handleTerminalReorder initialTerminals 0 2).map terminalView).Perm
        (initialTerminals.map terminalView) ∧
    (handleTerminalReorder initialTerminals 0 2).map (fun t => t.order) =
      List.range initialTerminals.length :=
  reorder_is_permutation initialTerminals 0 2 (by decide) (by decide)

/-! ### Claim C9: exactly one active terminal -/

/-- The grid operations the UI can invoke on the terminal list. -/
inductive GridOp
  | activate (terminalId : Nat)
  | rename (terminalId : Nat) (newTitle : List Char)
  | reorder (dragIndex hoverIndex : Nat)

def applyOp (terminals : List Terminal) : GridOp → List Terminal
  | .activate tid => handleTerminalActivate terminals tid
  | .rename tid newTitle => handleTerminalRename terminals tid newTitle
  | .reorder dragIndex hoverIndex => handleTerminalReorder terminals dragIndex hoverIndex

def applyOps (terminals : List Terminal) : List GridOp → List Terminal
  | [] => terminals
  | op :: ops => applyOps (applyOp terminals op) ops

/-- The arguments the UI actually passes: `handleTerminalActivate` is only
invoked with the id of a rendered terminal, and `handleTerminalReorder`
only with indices of rendered panels. -/
def validOp (terminals : List Terminal) : GridOp → Prop
  | .activate tid => tid ∈ terminals.map (fun t => t.id)
  | .rename _ _ => True
  | .reorder dragIndex hoverIndex =>
      dragIndex < terminals.length ∧ hoverIndex < terminals.length

inductive ValidOps : List Terminal → List GridOp → Prop
  | nil (terminals : List Terminal) : ValidOps terminals []
  | cons {terminals : List Terminal} {op : GridOp} {ops : List GridOp} :
      validOp terminals op → ValidOps (applyOp terminals op) ops →
      ValidOps terminals (op :: ops)

instance (terminals : List Terminal) (op : GridOp) : Decidable (validOp terminals op) :=
  match op with
  | .activate tid => (inferInstance : Decidable (tid ∈ terminals.map (fun t => t.id)))
  | .rename _ _ => (inferInstance : Decidable True)
  | .reorder dragIndex hoverIndex =>
      (inferInstance :
        Decidable (dragIndex < terminals.length ∧ hoverIndex < terminals.length))

/-- The invariant carried through every grid operation: distinct ids and
exactly one active terminal. -/
def GridInv (terminals : List Terminal) : Prop :=
  (terminals.map (fun t => t.id)).Nodup ∧ countActive terminals = 1

instance (terminals : List Terminal) : Decidable (GridInv terminals) :=
  (inferInstance :
    Decidable ((terminals.map (fun t => t.id)).Nodup ∧ countActive terminals = 1))

theorem map_id_activate (terminals : List Terminal) (tid : Nat) :
    (handleTerminalActivate terminals tid).map (fun t => t.id) =
      terminals.map (fun t => t.id) := by
  simp [handleTerminalActivate, List.map_map, Function.comp_def]

theorem map_id_rename (terminals : List Terminal) (tid : Nat) (newTitle : List Char) :
    (handleTerminalRename terminals tid newTitle).map (fun t => t.id) =
      terminals.map (fun t => t.id) := by
  simp only [handleTerminalRename, List.map_map, Function.comp_def]
  refine List.map_congr_left ?_
  intro t _
  by_cases h : t.id == tid <;> simp [h]

theorem countActive_rename (terminals : List Terminal) (tid : Nat)
    (newTitle : List Char) :
    countActive (handleTerminalRename terminals tid newTitle) =
      countActive terminals := by
  simp only [countActive, handleTerminalRename, List.countP_map]
  refine List.countP_congr ?_
  intro t _
  by_cases h : t.id = tid <;> simp [h, Function.comp_def]

theorem countActive_activate (terminals : List Terminal) (tid : Nat) :
    countActive (handleTerminalActivate terminals tid) =
      (terminals.map (fun t => t.id)).count tid := by
  induction terminals with
  | nil => rfl
  | cons t ts ih =>
      simp only [countActive, handleTerminalActivate, List.map_cons,
        List.countP_cons, List.count_cons] at *
      rw [ih]

theorem countActive_mapActive (terminals : List Terminal) :
    countActive terminals =
      (terminals.map (fun t => t.active)).countP (fun b => b) := by
  rw [List.countP_map]
  rfl

theorem gridInv_applyOp {terminals : List Terminal} {op : GridOp}
    (hv : validOp terminals op) (hinv : GridInv terminals) :
    GridInv (applyOp terminals op) := by
  cases op with
  | activate tid =>
      refine ⟨?_, ?_⟩
      · show ((handleTerminalActivate terminals tid).map (fun t => t.id)).Nodup
        rw [map_id_activate]
        exact hinv.1
      · show countActive (handleTerminalActivate terminals tid) = 1
        rw [countActive_activate]
        exact List.count_eq_one_of_mem hinv.1 hv
  | rename tid newTitle =>
      refine ⟨?_, ?_⟩
      · show ((handleTerminalRename terminals tid newTitle).map (fun t => t.id)).Nodup
        rw [map_id_rename]
        exact hinv.1
      · show countActive (handleTerminalRename terminals tid newTitle) = 1
        rw [countActive_rename]
        exact hinv.2
  | reorder dragIndex hoverIndex =>
      obtain ⟨hd, _⟩ := hv
      constructor
      · show ((handleTerminalReorder terminals dragIndex hoverIndex).map
            (fun t => t.id)).Nodup
        exact (reorder_map_perm (fun t => t.id) (fun t i => rfl)
          terminals dragIndex hoverIndex hd).nodup_iff.mpr hinv.1
      · show countActive (handleTerminalReorder terminals dragIndex hoverIndex) = 1
        rw [countActive_mapActive,
          (reorder_map_perm (fun t => t.active) (fun t i => rfl)
            terminals dragIndex hoverIndex hd).countP_eq,
          ← countActive_mapActive]
        exact hinv.2

theorem gridInv_applyOps :
    ∀ (ops : List GridOp) (terminals : List Terminal),
      ValidOps terminals ops → GridInv terminals →
        GridInv (applyOps terminals ops) := by
  intro ops
  induction ops with
  | nil => intro l _ h; exact h
  | cons op ops ih =>
      intro l hv hinv
      cases hv with
      | cons hop hops => exact ih _ hops (gridInv_applyOp hop hinv)

/-- C9: in the initial grid state exactly terminal 1 is active, and after
any sequence of UI operations (activations with a rendered terminal's id,
renames, in-bounds reorders) exactly one terminal has `active = true`. -/
theorem unique_active_terminal (ops : List GridOp)
    (h : ValidOps initialTerminals ops) :
    ((initialTerminals.filter (fun t => t.active)).map (fun t => t.id) = [1]) ∧
    countActive (applyOps initialTerminals ops) = 1 :=
  ⟨by decide,
   (gridInv_applyOps ops initialTerminals h (by decide)).2⟩

/-- C9 witness: activate terminal 2, drag panel 0 to position 2, rename
terminal 3 — exactly one terminal stays active. -/
theorem unique_active_terminal_witness :
    countActive (applyOps initialTerminals
      [GridOp.activate 2, GridOp.reorder 0 2, GridOp.rename 3 []]) = 1 :=
  (unique_active_terminal [GridOp.activate 2, GridOp.reorder 0 2, GridOp.rename 3 []]
    (ValidOps.cons (by decide) (ValidOps.cons (by decide)
      (ValidOps.cons (by decide) (ValidOps.nil _))))).2

/-! ## Claim C8: CommandRecord status state machine -/

/-- Modelled from the spec: the per-`CommandRecord` status state machine
of §4.5 (`pending → completed | failed | cancelled`, the last only via
session close, no transition out of a terminal state).  The repository
under `src` stores issued commands as plain strings with no status field,
so the machine is taken from the spec text. -/
inductive CommandStatus
  | pending
  | completed
  | failed
  | cancelled
deriving DecidableEq, Repr

/-- Modelled from the spec: the events that can move a record's status —
a final success chunk, a final failure chunk (error, timeout,
unreachable agent), or closing the owning session. -/
inductive RecordEvent
  | finishOk
  | finishErr
  | sessionClose
deriving DecidableEq, Repr

/-- Modelled from the spec: the transition function of the
`CommandRecord` status machine; `none` means no transition is taken. -/
def statusStep : CommandStatus → RecordEvent → Option CommandStatus
  | .pending, .finishOk => some .completed
  | .pending, .finishErr => some .failed
  | .pending, .sessionClose => some .cancelled
  | .completed, _ => none
  | .failed, _ => none
  | .cancelled, _ => none

def isTerminalStatus : CommandStatus → Bool
  | .pending => false
  | .completed => true
  | .failed => true
  | .cancelled => true

/-- C8: every transition ever taken starts from `pending` and lands in a
terminal status; `cancelled` is reached only via session close; and no
step changes a status that is already terminal (`completed`, `failed` or
`cancelled`). -/
theorem command_status_state_machine (s t : CommandStatus) (e : RecordEvent)
    (h : statusStep s e = some t) :
    s = CommandStatus.pending ∧ isTerminalStatus t = true ∧
      (t = CommandStatus.cancelled → e = RecordEvent.sessionClose) ∧
      ∀ (u : CommandStatus), isTerminalStatus u = true →
        ∀ (e2 : RecordEvent), statusStep u e2 = none := by
  have hterm : ∀ (u : CommandStatus), isTerminalStatus u = true →
      ∀ (e2 : RecordEvent), statusStep u e2 = none := by
    intro u hu e2
    cases u <;> cases e2 <;> simp_all [statusStep, isTerminalStatus]
  refine ⟨?_, ?_, ?_, hterm⟩ <;>
    cases s <;> cases e <;>
      first
        | (injection h with h; subst h; decide)
        | (cases h)

/-- C8 witness: the transition taken by a successful completion from
`pending` satisfies the machine's guarantees. -/
theorem command_status_state_machine_witness :
    CommandStatus.pending = CommandStatus.pending ∧
      isTerminalStatus CommandStatus.completed = true :=
  ⟨(command_status_state_machine CommandStatus.pending CommandStatus.completed
      RecordEvent.finishOk (by decide)).1,
   (command_status_state_machine CommandStatus.pending CommandStatus.completed
      RecordEvent.finishOk (by decide)).2.1⟩
